import Mathlib

/-!
Shallow embedding of the pre-signed transaction pool of the reaction-time
game (the single-player page component).  Pure data and the state
transitions are translated from the TypeScript source; the asynchronous
refill completion is modelled by explicit resolution steps on a system
state that records which dispatched refill promises are still pending.
-/

/-- Fields of the legacy transaction object built in preSignBatch.  The
signing collaborator is opaque and deterministic per input, so a signed
entry is represented by the transaction data itself; the two-digit hex
payload string is represented by the number it encodes (i + 1). -/
structure TxData where
  toAddr : Nat
  value : Nat
  data : Nat
  nonce : Nat
  gasPrice : Nat
  gas : Nat
deriving Repr, DecidableEq

/-- The list of transactions produced by one preSignBatch(startNonce,
batchSize) call: index i of the batch gets nonce startNonce + i, payload
i + 1, value 0, recipient the owning account itself, and the gas globals
fetched at startup. -/
def preSignBatchTxs (selfAddr gasPriceV gasLimitV startNonce batchSize : Nat) : List TxData :=
  (List.range batchSize).map fun i =>
    { toAddr := selfAddr, value := 0, data := i + 1, nonce := startNonce + i,
      gasPrice := gasPriceV, gas := gasLimitV }

/-- The preSignedPool module variable of the source. -/
structure Pool where
  transactions : List TxData
  currentIndex : Nat
  baseNonce : Nat
  hasTriggeredRefill : Bool
deriving Repr, DecidableEq

/-- A dispatched refill batch: its start nonce and batch size, both
computed synchronously at trigger time inside getNextTransaction. -/
structure Refill where
  startNonce : Nat
  batchSize : Nat
deriving Repr, DecidableEq

/-- Module-level state: the pool and the gas globals of the source,
together with ghost records of the refill promises still pending
(inflight), of every refill ever dispatched (history), and of whether a
refill promise has been rejected (refillFailed). -/
structure SysState where
  pool : Pool
  gasPrice : Nat
  gasLimit : Nat
  inflight : List Refill
  history : List Refill
  refillFailed : Bool
deriving Repr, DecidableEq

/-- The error thrown by getNextTransaction when the pool is used up
(the source throws new Error with a no-transactions-available message). -/
inductive PoolError where
  | poolExhausted
deriving Repr, DecidableEq

/-- Cursor advance of getNextTransaction (pool.currentIndex++). -/
def takeAdvance (s : SysState) : SysState :=
  { s with pool := { s.pool with currentIndex := s.pool.currentIndex + 1 } }

/-- Synchronous part of the background-refill dispatch inside
getNextTransaction: set the guard, compute nextNonce as baseNonce plus
the current pool length, and dispatch a batch of 10. -/
def refillTrigger (s : SysState) : SysState :=
  { s with
    pool := { s.pool with hasTriggeredRefill := true },
    inflight := s.inflight ++
      [{ startNonce := s.pool.baseNonce + s.pool.transactions.length, batchSize := 10 }],
    history := s.history ++
      [{ startNonce := s.pool.baseNonce + s.pool.transactions.length, batchSize := 10 }] }

/-- getNextTransaction: throw if currentIndex has reached the pool
length; otherwise read the entry at currentIndex, advance the cursor,
and, when the advanced cursor is an exact multiple of 5 and the guard is
clear, dispatch a background refill of 10 starting at baseNonce plus the
pool length.  The indexing result is kept as an Option, mirroring the
array read of the source. -/
def getNextTransaction (s : SysState) : Except PoolError (Option TxData × SysState) :=
  if s.pool.currentIndex ≥ s.pool.transactions.length then
    .error .poolExhausted
  else if (s.pool.currentIndex + 1) % 5 == 0 && !s.pool.hasTriggeredRefill then
    .ok (s.pool.transactions[s.pool.currentIndex]?, refillTrigger (takeAdvance s))
  else
    .ok (s.pool.transactions[s.pool.currentIndex]?, takeAdvance s)

/-- Body of preSignBatch once all of its signing promises resolve: push
the newly signed transactions onto the pool.  The gas globals are read,
never written. -/
def runPreSignBatch (selfAddr : Nat) (s : SysState) (startNonce batchSize : Nat) : SysState :=
  { s with pool := { s.pool with
      transactions := s.pool.transactions ++
        preSignBatchTxs selfAddr s.gasPrice s.gasLimit startNonce batchSize } }

/-- Resolution of a dispatched refill whose signing succeeded: the new
entries are appended and then the then-callback clears the guard. -/
def resolveRefillSuccess (selfAddr : Nat) (s : SysState) (r : Refill) (rest : List Refill) :
    SysState :=
  let s1 := runPreSignBatch selfAddr s r.startNonce r.batchSize
  { s1 with pool := { s1.pool with hasTriggeredRefill := false }, inflight := rest }

/-- Resolution of a dispatched refill whose signing rejected: preSignBatch
appends nothing and, because the promise chain in the source has no
rejection handler, the then-callback that clears the guard never runs. -/
def resolveRefillFailure (s : SysState) (rest : List Refill) : SysState :=
  { s with inflight := rest, refillFailed := true }

/-- One transition of the pool system: a successful take, or the
resolution (success or rejection) of one pending refill promise. -/
inductive Step (selfAddr : Nat) : SysState → SysState → Prop
  | take {s : SysState} {tx : Option TxData} {s2 : SysState} :
      getNextTransaction s = .ok (tx, s2) → Step selfAddr s s2
  | refillOk {s : SysState} {r : Refill} {l1 l2 : List Refill} :
      s.inflight = l1 ++ r :: l2 → Step selfAddr s (resolveRefillSuccess selfAddr s r (l1 ++ l2))
  | refillFail {s : SysState} {r : Refill} {l1 l2 : List Refill} :
      s.inflight = l1 ++ r :: l2 → Step selfAddr s (resolveRefillFailure s (l1 ++ l2))

/-- State after a successful init effect: gas globals set from the
startup queries, baseNonce set to the fetched transaction count, and the
initial batch of 10 transactions signed. -/
def initState (selfAddr nonce0 gas0 est0 : Nat) : SysState :=
  { pool := { transactions := preSignBatchTxs selfAddr gas0 est0 nonce0 10,
              currentIndex := 0, baseNonce := nonce0, hasTriggeredRefill := false },
    gasPrice := gas0, gasLimit := est0,
    inflight := [], history := [], refillFailed := false }

/-- Pool states reachable from a successful initialization. -/
inductive Reachable (selfAddr nonce0 gas0 est0 : Nat) : SysState → Prop
  | init : Reachable selfAddr nonce0 gas0 est0 (initState selfAddr nonce0 gas0 est0)
  | step {s s2 : SysState} : Reachable selfAddr nonce0 gas0 est0 s →
      Step selfAddr s s2 → Reachable selfAddr nonce0 gas0 est0 s2

/-- Inductive invariant of the pool system: entry i carries nonce
baseNonce + i, the cursor stays in bounds, the globals written at init
are never rewritten, at most one refill promise is pending, a pending
refill starts exactly at baseNonce plus the pool length, dispatched
refills have pairwise non-overlapping nonce ranges, and the guard is set
exactly when a refill is pending or a refill promise was rejected. -/
structure PoolInv (nonce0 gas0 est0 : Nat) (s : SysState) : Prop where
  nonce_at : ∀ i (h : i < s.pool.transactions.length),
    (s.pool.transactions[i]).nonce = s.pool.baseNonce + i
  cursor_le : s.pool.currentIndex ≤ s.pool.transactions.length
  base_eq : s.pool.baseNonce = nonce0
  gasPrice_eq : s.gasPrice = gas0
  gasLimit_eq : s.gasLimit = est0
  inflight_le_one : s.inflight.length ≤ 1
  inflight_start : ∀ r ∈ s.inflight,
    r.startNonce = s.pool.baseNonce + s.pool.transactions.length ∧ r.batchSize = 10
  history_size : ∀ r ∈ s.history, r.batchSize = 10
  history_chain : s.history.Pairwise fun r1 r2 => r1.startNonce + r1.batchSize ≤ r2.startNonce
  history_bound : s.refillFailed = false → ∀ r ∈ s.history,
    r.startNonce + r.batchSize ≤
      s.pool.baseNonce + s.pool.transactions.length + 10 * s.inflight.length
  guard_iff : s.pool.hasTriggeredRefill = true ↔ (s.inflight ≠ [] ∨ s.refillFailed = true)
  failed_inflight : s.refillFailed = true → s.inflight = []

/-- k consecutive calls to getNextTransaction, dropping the returned
transactions and propagating the first error. -/
def takeK : Nat → SysState → Except PoolError SysState
  | 0, s => .ok s
  | k + 1, s =>
    match getNextTransaction s with
    | .error e => .error e
    | .ok (_, s1) => takeK k s1

/-- k consecutive calls to getNextTransaction, collecting the returned
transactions in order and propagating the first error. -/
def takeTrace : Nat → SysState → Except PoolError (List (Option TxData) × SysState)
  | 0, s => .ok ([], s)
  | k + 1, s =>
    match getNextTransaction s with
    | .error e => .error e
    | .ok (tx, s1) =>
      match takeTrace k s1 with
      | .error e => .error e
      | .ok (txs, s2) => .ok (tx :: txs, s2)

/-- The game-state enumeration of the UI. -/
inductive GameState where
  | idle
  | waiting
  | ready
  | clicked
  | finished
  | tooEarly
deriving Repr, DecidableEq

/-- A per-round result row (txTime and totalTime in rounded
milliseconds; reactionTime may be negative after the adjustment). -/
structure Result where
  attempt : Nat
  reactionTime : Int
  txTime : Nat
  totalTime : Int
  failed : Bool
deriving Repr, DecidableEq

/-- The component state read and written by handleClick. -/
structure UIState where
  gameState : GameState
  currentRound : Nat
  results : List Result
  isReady : Bool
deriving Repr, DecidableEq

/-- Outcome of the take-and-broadcast block of a valid click: either the
synchronous broadcast confirms after txTime rounded milliseconds, or the
block throws (broadcast failure, timeout, or pool exhaustion). -/
inductive TxOutcome where
  | success (txTime : Nat)
  | failure
deriving Repr, DecidableEq

/-- Browser-rendering adjustment subtracted from the raw reaction delta. -/
def ADJUSTMENT : Nat := 100

/-- Shared tail of both the success and the failure branch of a valid
click: append the result row, then finish after round 5 or move to the
next round (startRound puts the UI in the waiting state). -/
def advanceRound (ui : UIState) : UIState :=
  if ui.currentRound ≥ 5 then { ui with gameState := .finished }
  else { ui with currentRound := ui.currentRound + 1, gameState := .waiting }

/-- handleClick, with the rounded delta between the click and the green
signal and the outcome of the transaction block supplied as inputs.  The
final observable state is modelled (the transient clicked state set
before the awaited broadcast resolves is passed through by the
state-machine branches below). -/
def handleClick (ui : UIState) (roundedDelta : Nat) (outcome : TxOutcome) : UIState :=
  if !ui.isReady then ui
  else
    match ui.gameState with
    | .idle | .finished | .tooEarly =>
        { ui with currentRound := 1, results := [], gameState := .waiting }
    | .waiting =>
        { ui with gameState := .tooEarly, currentRound := 0, results := [] }
    | .clicked => ui
    | .ready =>
        match outcome with
        | .success txTime =>
            advanceRound { ui with results := ui.results ++
              [{ attempt := ui.currentRound,
                 reactionTime := (roundedDelta : Int) - (ADJUSTMENT : Int),
                 txTime := txTime,
                 totalTime := ((roundedDelta : Int) - (ADJUSTMENT : Int)) + (txTime : Int),
                 failed := false }] }
        | .failure =>
            advanceRound { ui with results := ui.results ++
              [{ attempt := ui.currentRound,
                 reactionTime := (roundedDelta : Int) - (ADJUSTMENT : Int),
                 txTime := 0,
                 totalTime := (roundedDelta : Int) - (ADJUSTMENT : Int),
                 failed := true }] }

/-- Outcome of the initialization effect: one of the startup queries
rejects, the queries succeed but the initial signing batch rejects, or
everything succeeds with the fetched transaction count, gas price and
gas estimate. -/
inductive InitOutcome where
  | queryFailed
  | signingFailed (nonce0 gas0 est0 : Nat)
  | ok (nonce0 gas0 est0 : Nat)
deriving Repr, DecidableEq

/-- The init effect: only after the startup queries and the priming batch
all succeed is isReady set; any rejection is caught by the surrounding
try-catch, leaving isReady false and no primed pool.  Returns the isReady
flag and the primed pool state, if any. -/
def runInit (selfAddr : Nat) (o : InitOutcome) : Bool × Option SysState :=
  match o with
  | .queryFailed => (false, none)
  | .signingFailed _ _ _ => (false, none)
  | .ok nonce0 gas0 est0 => (true, some (initState selfAddr nonce0 gas0 est0))

/-- Concrete demonstration state: the pool initialized with nonce 100,
gas price 2 and gas limit 21000, after five takes (the fifth dispatched
a refill starting at nonce 110). -/
def demoS5 : SysState :=
  { pool := { transactions := preSignBatchTxs 1 2 21000 100 10, currentIndex := 5,
              baseNonce := 100, hasTriggeredRefill := true },
    gasPrice := 2, gasLimit := 21000,
    inflight := [{ startNonce := 110, batchSize := 10 }],
    history := [{ startNonce := 110, batchSize := 10 }],
    refillFailed := false }

/-- demoS5 after the dispatched refill batch is rejected by the signer. -/
def demoS6 : SysState := resolveRefillFailure demoS5 []

/-- demoS6 after five further takes (cursor 5 up to 10). -/
def demoS11 : SysState :=
  { demoS6 with pool := { demoS6.pool with currentIndex := 10 } }

theorem preSignBatchTxs_length (a g l sn n : Nat) : (preSignBatchTxs a g l sn n).length = n := by
  simp [preSignBatchTxs]

theorem preSignBatchTxs_getElem (a g l sn n i : Nat)
    (h : i < (preSignBatchTxs a g l sn n).length) :
    (preSignBatchTxs a g l sn n)[i] =
      { toAddr := a, value := 0, data := i + 1, nonce := sn + i, gasPrice := g, gas := l } := by
  simp [preSignBatchTxs]

theorem getNextTransaction_ok_cases {s : SysState} {tx : Option TxData} {s2 : SysState}
    (h : getNextTransaction s = .ok (tx, s2)) :
    s.pool.currentIndex < s.pool.transactions.length ∧
    tx = s.pool.transactions[s.pool.currentIndex]? ∧
    ((((s.pool.currentIndex + 1) % 5 == 0 && !s.pool.hasTriggeredRefill) = true ∧
        s2 = refillTrigger (takeAdvance s)) ∨
     (((s.pool.currentIndex + 1) % 5 == 0 && !s.pool.hasTriggeredRefill) = false ∧
        s2 = takeAdvance s)) := by
  unfold getNextTransaction at h
  split at h
  · exact absurd h (by simp)
  · next hge =>
    have hlt : s.pool.currentIndex < s.pool.transactions.length := by omega
    split at h
    · next hc =>
      simp only [Except.ok.injEq, Prod.mk.injEq] at h
      exact ⟨hlt, h.1.symm, Or.inl ⟨hc, h.2.symm⟩⟩
    · next hc =>
      simp only [Except.ok.injEq, Prod.mk.injEq] at h
      exact ⟨hlt, h.1.symm, Or.inr ⟨Bool.not_eq_true _ ▸ Bool.of_not_eq_true hc, h.2.symm⟩⟩

theorem poolInv_init (a n g e : Nat) : PoolInv n g e (initState a n g e) := by
  refine ⟨?_, ?_, rfl, rfl, rfl, ?_, ?_, ?_, ?_, ?_, ?_, ?_⟩
  · intro i h
    simp [initState, preSignBatchTxs]
  · simp [initState]
  · simp [initState]
  · intro r hr
    simp [initState] at hr
  · intro r hr
    simp [initState] at hr
  · simp [initState]
  · intro _ r hr
    simp [initState] at hr
  · simp [initState]
  · intro h
    simp [initState] at h

theorem poolInv_step {a n g e : Nat} {s s2 : SysState} (hs : PoolInv n g e s)
    (st : Step a s s2) : PoolInv n g e s2 := by
  cases st with
  | take h =>
    obtain ⟨hlt, htx, hbr⟩ := getNextTransaction_ok_cases h
    rcases hbr with ⟨hc, rfl⟩ | ⟨hc, rfl⟩
    · simp only [Bool.and_eq_true, beq_iff_eq, Bool.not_eq_eq_eq_not, Bool.not_true] at hc
      have hguard : s.pool.hasTriggeredRefill = false := hc.2
      have hninfl : s.inflight = [] := by
        by_contra hne
        have := hs.guard_iff.mpr (Or.inl hne)
        rw [hguard] at this
        exact Bool.false_ne_true this
      have hnfail : s.refillFailed = false := by
        by_contra hne
        have hf : s.refillFailed = true := by
          revert hne
          cases s.refillFailed <;> simp
        have := hs.guard_iff.mpr (Or.inr hf)
        rw [hguard] at this
        exact Bool.false_ne_true this
      refine ⟨?_, ?_, hs.base_eq, hs.gasPrice_eq, hs.gasLimit_eq, ?_, ?_, ?_, ?_, ?_, ?_, ?_⟩
      · intro i hh
        exact hs.nonce_at i hh
      · simp only [refillTrigger, takeAdvance]
        omega
      · simp [refillTrigger, takeAdvance, hninfl]
      · intro r hr
        simp [refillTrigger, takeAdvance, hninfl] at hr
        simp [refillTrigger, takeAdvance, hr]
      · intro r hr
        simp only [refillTrigger, takeAdvance, List.mem_append, List.mem_singleton] at hr
        rcases hr with hr | hr
        · exact hs.history_size r hr
        · simp [hr]
      · simp only [refillTrigger, takeAdvance]
        rw [List.pairwise_append]
        refine ⟨hs.history_chain, by simp, ?_⟩
        intro x hx y hy
        simp only [List.mem_singleton] at hy
        have hb := hs.history_bound hnfail x hx
        rw [hninfl] at hb
        simp only [List.length_nil, Nat.mul_zero, Nat.add_zero] at hb
        simp [hy]
        omega
      · intro hf r hr
        simp only [refillTrigger, takeAdvance, List.mem_append, List.mem_singleton] at hr
        simp only [refillTrigger, takeAdvance, hninfl]
        rcases hr with hr | hr
        · have hb := hs.history_bound hnfail r hr
          rw [hninfl] at hb
          simp only [List.length_nil, Nat.mul_zero, Nat.add_zero] at hb
          simp only [List.nil_append, List.length_cons, List.length_nil]
          omega
        · simp [hr]
      · simp [refillTrigger, takeAdvance]
      · intro hf
        simp only [refillTrigger, takeAdvance] at hf
        rw [hnfail] at hf
        exact absurd hf (by simp)
    · refine ⟨?_, ?_, hs.base_eq, hs.gasPrice_eq, hs.gasLimit_eq, hs.inflight_le_one, ?_, ?_,
        hs.history_chain, ?_, ?_, ?_⟩
      · intro i hh
        exact hs.nonce_at i hh
      · simp only [takeAdvance]
        omega
      · intro r hr
        exact hs.inflight_start r hr
      · intro r hr
        exact hs.history_size r hr
      · intro hf r hr
        exact hs.history_bound hf r hr
      · exact hs.guard_iff
      · intro hf
        exact hs.failed_inflight hf
  | refillOk hmem =>
    rename_i r l1 l2
    have hlen := hs.inflight_le_one
    rw [hmem] at hlen
    simp only [List.length_append, List.length_cons] at hlen
    have hl1 : l1 = [] := List.length_eq_zero.mp (by omega)
    have hl2 : l2 = [] := List.length_eq_zero.mp (by omega)
    subst hl1
    subst hl2
    simp only [List.nil_append] at hmem
    have hrmem : r ∈ s.inflight := by
      rw [hmem]
      exact List.mem_singleton_self r
    obtain ⟨hr_start, hr_size⟩ := hs.inflight_start r hrmem
    have hnfail : s.refillFailed = false := by
      by_contra hne
      have hf : s.refillFailed = true := by
        revert hne
        cases s.refillFailed <;> simp
      have := hs.failed_inflight hf
      rw [hmem] at this
      exact absurd this (by simp)
    refine ⟨?_, ?_, hs.base_eq, hs.gasPrice_eq, hs.gasLimit_eq, ?_, ?_, ?_,
      hs.history_chain, ?_, ?_, ?_⟩
    · intro i hh
      simp only [resolveRefillSuccess, runPreSignBatch] at hh ⊢
      simp only [List.length_append, preSignBatchTxs_length] at hh
      by_cases hi : i < s.pool.transactions.length
      · rw [List.getElem_append_left hi]
        exact hs.nonce_at i hi
      · rw [List.getElem_append_right (Nat.le_of_not_lt hi)]
        rw [preSignBatchTxs_getElem]
        simp only
        omega
    · simp only [resolveRefillSuccess, runPreSignBatch, List.length_append]
      have := hs.cursor_le
      omega
    · simp [resolveRefillSuccess, runPreSignBatch]
    · intro r2 hr2
      simp [resolveRefillSuccess, runPreSignBatch] at hr2
    · intro r2 hr2
      exact hs.history_size r2 hr2
    · intro hf r2 hr2
      have hb := hs.history_bound hnfail r2 hr2
      rw [hmem] at hb
      simp only [List.length_cons, List.length_nil] at hb
      simp only [resolveRefillSuccess, runPreSignBatch, List.length_append,
        preSignBatchTxs_length, List.length_nil, Nat.mul_zero, Nat.add_zero]
      omega
    · simp [resolveRefillSuccess, runPreSignBatch, hnfail]
    · intro hf
      simp [resolveRefillSuccess, runPreSignBatch] at hf
      rw [hnfail] at hf
      exact absurd hf (by simp)
  | refillFail hmem =>
    rename_i r l1 l2
    have hlen := hs.inflight_le_one
    rw [hmem] at hlen
    simp only [List.length_append, List.length_cons] at hlen
    have hl1 : l1 = [] := List.length_eq_zero.mp (by omega)
    have hl2 : l2 = [] := List.length_eq_zero.mp (by omega)
    subst hl1
    subst hl2
    simp only [List.nil_append] at hmem
    have hguard : s.pool.hasTriggeredRefill = true := by
      apply hs.guard_iff.mpr
      left
      rw [hmem]
      simp
    refine ⟨?_, hs.cursor_le, hs.base_eq, hs.gasPrice_eq, hs.gasLimit_eq, ?_, ?_, ?_,
      hs.history_chain, ?_, ?_, ?_⟩
    · intro i hh
      exact hs.nonce_at i hh
    · simp [resolveRefillFailure]
    · intro r2 hr2
      simp [resolveRefillFailure] at hr2
    · intro r2 hr2
      exact hs.history_size r2 hr2
    · intro hf
      simp [resolveRefillFailure] at hf
    · simp [resolveRefillFailure, hguard]
    · intro _
      simp [resolveRefillFailure]

theorem reachable_poolInv {a n g e : Nat} {s : SysState} (h : Reachable a n g e s) :
    PoolInv n g e s := by
  induction h with
  | init => exact poolInv_init a n g e
  | step _ st ih => exact poolInv_step ih st

theorem getNextTransaction_succ {s : SysState}
    (h : s.pool.currentIndex < s.pool.transactions.length) :
    ∃ tx s2, getNextTransaction s = .ok (tx, s2) ∧
      s2.pool.currentIndex = s.pool.currentIndex + 1 ∧
      s2.pool.transactions = s.pool.transactions ∧
      s2.pool.baseNonce = s.pool.baseNonce ∧
      s2.gasPrice = s.gasPrice ∧ s2.gasLimit = s.gasLimit := by
  unfold getNextTransaction
  rw [if_neg (by omega : ¬ s.pool.currentIndex ≥ s.pool.transactions.length)]
  split
  · exact ⟨_, _, rfl, rfl, rfl, rfl, rfl, rfl⟩
  · exact ⟨_, _, rfl, rfl, rfl, rfl, rfl, rfl⟩

theorem takeK_fills (k : Nat) :
    ∀ s : SysState, s.pool.currentIndex + k ≤ s.pool.transactions.length →
    ∃ s2, takeK k s = .ok s2 ∧ s2.pool.currentIndex = s.pool.currentIndex + k ∧
      s2.pool.transactions = s.pool.transactions := by
  induction k with
  | zero =>
    intro s h
    exact ⟨s, rfl, by omega, rfl⟩
  | succ k ih =>
    intro s h
    have hlt : s.pool.currentIndex < s.pool.transactions.length := by omega
    obtain ⟨tx, s1, heq, hcur, htr, _, _, _⟩ := getNextTransaction_succ hlt
    obtain ⟨s2, h2, hc2, ht2⟩ := ih s1 (by rw [hcur, htr]; omega)
    refine ⟨s2, ?_, by omega, by rw [ht2, htr]⟩
    unfold takeK
    rw [heq]
    exact h2

/-- Claim C2: getNextTransaction returns the entry at the cursor and
advances the cursor by exactly one; it fails with the pool-exhausted
error exactly when the cursor equals the number of entries; consequently
all remaining entries can be taken one by one and the following call
fails with the pool-exhausted error. -/
theorem take_contract (s : SysState)
    (h : s.pool.currentIndex ≤ s.pool.transactions.length) :
    (getNextTransaction s = .error .poolExhausted ↔
      s.pool.currentIndex = s.pool.transactions.length) ∧
    (∀ tx s2, getNextTransaction s = .ok (tx, s2) →
      tx = s.pool.transactions[s.pool.currentIndex]? ∧
      s2.pool.currentIndex = s.pool.currentIndex + 1 ∧
      s2.pool.transactions = s.pool.transactions) ∧
    (∃ s2, takeK (s.pool.transactions.length - s.pool.currentIndex) s = .ok s2 ∧
      getNextTransaction s2 = .error .poolExhausted) := by
  refine ⟨⟨?_, ?_⟩, ?_, ?_⟩
  · intro he
    by_contra hne
    have hlt : s.pool.currentIndex < s.pool.transactions.length := by omega
    obtain ⟨tx, s1, heq, _⟩ := getNextTransaction_succ hlt
    rw [heq] at he
    exact absurd he (by simp)
  · intro he
    unfold getNextTransaction
    rw [if_pos (by omega)]
  · intro tx s2 hok
    obtain ⟨hlt, htx, hbr⟩ := getNextTransaction_ok_cases hok
    rcases hbr with ⟨_, rfl⟩ | ⟨_, rfl⟩
    · exact ⟨htx, rfl, rfl⟩
    · exact ⟨htx, rfl, rfl⟩
  · obtain ⟨s2, h2, hc2, ht2⟩ :=
      takeK_fills (s.pool.transactions.length - s.pool.currentIndex) s (by omega)
    refine ⟨s2, h2, ?_⟩
    unfold getNextTransaction
    rw [if_pos (by rw [hc2, ht2]; omega)]

/-- Witness for C2 at a concrete freshly initialized pool. -/
theorem take_contract_witness :
    ((initState 1 7 2 3).pool.currentIndex ≤ (initState 1 7 2 3).pool.transactions.length) ∧
    ((getNextTransaction (initState 1 7 2 3) = .error .poolExhausted ↔
      (initState 1 7 2 3).pool.currentIndex = (initState 1 7 2 3).pool.transactions.length) ∧
    (∀ tx s2, getNextTransaction (initState 1 7 2 3) = .ok (tx, s2) →
      tx = (initState 1 7 2 3).pool.transactions[(initState 1 7 2 3).pool.currentIndex]? ∧
      s2.pool.currentIndex = (initState 1 7 2 3).pool.currentIndex + 1 ∧
      s2.pool.transactions = (initState 1 7 2 3).pool.transactions) ∧
    (∃ s2, takeK ((initState 1 7 2 3).pool.transactions.length -
        (initState 1 7 2 3).pool.currentIndex) (initState 1 7 2 3) = .ok s2 ∧
      getNextTransaction s2 = .error .poolExhausted)) :=
  ⟨by decide, take_contract (initState 1 7 2 3) (by decide)⟩

/-- Claim C3: a successful take dispatches a background refill exactly
when the advanced cursor is a multiple of the low-water mark 5 and the
refill guard is clear, and the dispatched refill starts at baseNonce
plus the pool length read synchronously at trigger time; on a freshly
primed pool, five takes return nonces N..N+4 and dispatch exactly one
refill of 10 entries starting at nonce N+10. -/
theorem refill_trigger_policy (s : SysState) (tx : Option TxData) (s2 : SysState)
    (h : getNextTransaction s = .ok (tx, s2)) :
    ((s2.inflight = s.inflight ++
        [{ startNonce := s.pool.baseNonce + s.pool.transactions.length, batchSize := 10 }] ∧
      s2.history = s.history ++
        [{ startNonce := s.pool.baseNonce + s.pool.transactions.length, batchSize := 10 }]) ↔
      ((s.pool.currentIndex + 1) % 5 = 0 ∧ s.pool.hasTriggeredRefill = false)) ∧
    (¬((s.pool.currentIndex + 1) % 5 = 0 ∧ s.pool.hasTriggeredRefill = false) →
      (s2.inflight = s.inflight ∧ s2.history = s.history)) ∧
    (∀ a2 N g2 e2 : Nat, ∃ txs s5,
      takeTrace 5 (initState a2 N g2 e2) = .ok (txs, s5) ∧
      txs.map (fun o => o.map TxData.nonce) =
        [some N, some (N + 1), some (N + 2), some (N + 3), some (N + 4)] ∧
      s5.history = [{ startNonce := N + 10, batchSize := 10 }] ∧
      s5.inflight = [{ startNonce := N + 10, batchSize := 10 }] ∧
      s5.pool.transactions.length = 10) := by
  obtain ⟨hlt, htx, hbr⟩ := getNextTransaction_ok_cases h
  refine ⟨?_, ?_, ?_⟩
  · rcases hbr with ⟨hc, rfl⟩ | ⟨hc, rfl⟩
    · simp only [Bool.and_eq_true, beq_iff_eq, Bool.not_eq_eq_eq_not, Bool.not_true] at hc
      constructor
      · intro _
        exact hc
      · intro _
        constructor
        · simp [refillTrigger, takeAdvance]
        · simp [refillTrigger, takeAdvance]
    · constructor
      · intro hin
        exfalso
        have := congrArg List.length hin.1
        simp only [takeAdvance] at this
        simp at this
      · intro hin
        exfalso
        obtain ⟨h1, h2⟩ := hin
        rw [h1, h2] at hc
        simp at hc
  · intro hnot
    rcases hbr with ⟨hc, rfl⟩ | ⟨hc, rfl⟩
    · exfalso
      simp only [Bool.and_eq_true, beq_iff_eq, Bool.not_eq_eq_eq_not, Bool.not_true] at hc
      exact hnot hc
    · exact ⟨rfl, rfl⟩
  · intro a2 N g2 e2
    refine ⟨[some { toAddr := a2, value := 0, data := 1, nonce := N, gasPrice := g2, gas := e2 },
      some { toAddr := a2, value := 0, data := 2, nonce := N + 1, gasPrice := g2, gas := e2 },
      some { toAddr := a2, value := 0, data := 3, nonce := N + 2, gasPrice := g2, gas := e2 },
      some { toAddr := a2, value := 0, data := 4, nonce := N + 3, gasPrice := g2, gas := e2 },
      some { toAddr := a2, value := 0, data := 5, nonce := N + 4, gasPrice := g2, gas := e2 }],
      { pool := { transactions := preSignBatchTxs a2 g2 e2 N 10, currentIndex := 5,
                  baseNonce := N, hasTriggeredRefill := true },
        gasPrice := g2, gasLimit := e2,
        inflight := [{ startNonce := N + 10, batchSize := 10 }],
        history := [{ startNonce := N + 10, batchSize := 10 }],
        refillFailed := false }, ?_, ?_, ?_, ?_, ?_⟩
    · simp [takeTrace, getNextTransaction, initState, preSignBatchTxs, takeAdvance,
        refillTrigger, List.range_succ]
    · simp
    · simp
    · simp
    · simp [preSignBatchTxs]

/-- Witness for C3 at the concrete first take of a freshly initialized
pool (cursor moves to 1, no refill is dispatched). -/
theorem refill_trigger_policy_witness :
    (((takeAdvance (initState 1 7 2 3)).inflight = (initState 1 7 2 3).inflight ++
        [{ startNonce := (initState 1 7 2 3).pool.baseNonce +
            (initState 1 7 2 3).pool.transactions.length, batchSize := 10 }] ∧
      (takeAdvance (initState 1 7 2 3)).history = (initState 1 7 2 3).history ++
        [{ startNonce := (initState 1 7 2 3).pool.baseNonce +
            (initState 1 7 2 3).pool.transactions.length, batchSize := 10 }]) ↔
      (((initState 1 7 2 3).pool.currentIndex + 1) % 5 = 0 ∧
        (initState 1 7 2 3).pool.hasTriggeredRefill = false)) ∧
    (¬(((initState 1 7 2 3).pool.currentIndex + 1) % 5 = 0 ∧
        (initState 1 7 2 3).pool.hasTriggeredRefill = false) →
      ((takeAdvance (initState 1 7 2 3)).inflight = (initState 1 7 2 3).inflight ∧
       (takeAdvance (initState 1 7 2 3)).history = (initState 1 7 2 3).history)) ∧
    (∀ a2 N g2 e2 : Nat, ∃ txs s5,
      takeTrace 5 (initState a2 N g2 e2) = .ok (txs, s5) ∧
      txs.map (fun o => o.map TxData.nonce) =
        [some N, some (N + 1), some (N + 2), some (N + 3), some (N + 4)] ∧
      s5.history = [{ startNonce := N + 10, batchSize := 10 }] ∧
      s5.inflight = [{ startNonce := N + 10, batchSize := 10 }] ∧
      s5.pool.transactions.length = 10) :=
  refill_trigger_policy (initState 1 7 2 3)
    ((initState 1 7 2 3).pool.transactions[(initState 1 7 2 3).pool.currentIndex]?)
    (takeAdvance (initState 1 7 2 3)) rfl

/-- Claim C1, behavior of the code at the failing input: after the
refill dispatched by the fifth take is rejected, the pool length is
unchanged (as the claim states) but the guard stays set, and five
further takes cross the low-water mark at cursor 10 without any new
refill being dispatched, contrary to the claimed release-and-retry. -/
theorem refill_failure_leaves_guard_stuck :
    (∃ txs, takeTrace 5 (initState 1 100 2 21000) = .ok (txs, demoS5)) ∧
    demoS5.inflight = [{ startNonce := 110, batchSize := 10 }] ∧
    demoS6.pool.hasTriggeredRefill = true ∧
    demoS6.pool.transactions = demoS5.pool.transactions ∧
    demoS6.pool.transactions.length = 10 ∧
    (∃ txs2, takeTrace 5 demoS6 = .ok (txs2, demoS11)) ∧
    demoS11.pool.currentIndex = 10 ∧
    demoS11.history = [{ startNonce := 110, batchSize := 10 }] ∧
    demoS11.inflight = [] ∧
    demoS11.pool.hasTriggeredRefill = true :=
  ⟨⟨_, rfl⟩, rfl, rfl, rfl, rfl, ⟨_, rfl⟩, rfl, rfl, rfl, rfl⟩

theorem take_returns_nonce {n g e : Nat} {s : SysState} (hinv : PoolInv n g e s)
    {tx : Option TxData} {s2 : SysState} (h : getNextTransaction s = .ok (tx, s2)) :
    ∃ entry, tx = some entry ∧ entry.nonce = s.pool.baseNonce + s.pool.currentIndex := by
  obtain ⟨hlt, htx, _⟩ := getNextTransaction_ok_cases h
  refine ⟨s.pool.transactions[s.pool.currentIndex], ?_, hinv.nonce_at _ hlt⟩
  rw [htx, List.getElem?_eq_getElem hlt]

theorem take_preserves {s : SysState} {tx : Option TxData} {s2 : SysState}
    (h : getNextTransaction s = .ok (tx, s2)) :
    s2.pool.currentIndex = s.pool.currentIndex + 1 ∧
    s2.pool.transactions = s.pool.transactions ∧
    s2.pool.baseNonce = s.pool.baseNonce ∧
    s2.gasPrice = s.gasPrice ∧ s2.gasLimit = s.gasLimit := by
  obtain ⟨_, _, hbr⟩ := getNextTransaction_ok_cases h
  rcases hbr with ⟨_, rfl⟩ | ⟨_, rfl⟩ <;> exact ⟨rfl, rfl, rfl, rfl, rfl⟩

/-- Claim C4: in every reachable pool state the entry at index i carries
nonce baseNonce + i, distinct entries carry distinct nonces (no nonce is
reused across refills), and two consecutive successful takes return
present entries whose nonces increase by exactly one. -/
theorem pool_nonce_invariant (a n g e : Nat) (s : SysState)
    (hr : Reachable a n g e s) :
    (∀ i (h : i < s.pool.transactions.length),
      (s.pool.transactions.get ⟨i, h⟩).nonce = s.pool.baseNonce + i) ∧
    (∀ i j (hi : i < s.pool.transactions.length) (hj : j < s.pool.transactions.length),
      i ≠ j →
      (s.pool.transactions.get ⟨i, hi⟩).nonce ≠ (s.pool.transactions.get ⟨j, hj⟩).nonce) ∧
    (∀ tx1 s1 tx2 s2, getNextTransaction s = .ok (tx1, s1) →
      getNextTransaction s1 = .ok (tx2, s2) →
      ∃ e1 e2, tx1 = some e1 ∧ tx2 = some e2 ∧ e2.nonce = e1.nonce + 1) := by
  have hinv := reachable_poolInv hr
  refine ⟨?_, ?_, ?_⟩
  · intro i h
    simpa using hinv.nonce_at i h
  · intro i j hi hj hne
    have h1 := hinv.nonce_at i hi
    have h2 := hinv.nonce_at j hj
    simp only [List.get_eq_getElem]
    omega
  · intro tx1 s1 tx2 s2 h1 h2
    obtain ⟨e1, he1, hn1⟩ := take_returns_nonce hinv h1
    have hinv1 := poolInv_step (a := a) hinv (Step.take h1)
    obtain ⟨e2, he2, hn2⟩ := take_returns_nonce hinv1 h2
    obtain ⟨hc, ht, hb, _, _⟩ := take_preserves h1
    refine ⟨e1, e2, he1, he2, ?_⟩
    rw [hn1, hn2, hc, hb]
    omega

/-- Witness for C4 at a concrete freshly initialized pool. -/
theorem pool_nonce_invariant_witness :
    ((initState 1 100 2 3).pool.transactions.get ⟨2, by decide⟩).nonce =
      (initState 1 100 2 3).pool.baseNonce + 2 :=
  (pool_nonce_invariant 1 100 2 3 (initState 1 100 2 3) Reachable.init).1 2 (by decide)

/-- Claim C5: in every reachable state at most one refill is pending; a
take crossing the low-water mark while the guard is set dispatches no
second refill; and any two distinct dispatched refills have
non-overlapping nonce ranges. -/
theorem single_refill_inflight (a n g e : Nat) (s : SysState) (hr : Reachable a n g e s) :
    s.inflight.length ≤ 1 ∧
    (∀ tx s2, s.pool.hasTriggeredRefill = true → getNextTransaction s = .ok (tx, s2) →
      s2.inflight = s.inflight ∧ s2.history = s.history) ∧
    (∀ i j (hi : i < s.history.length) (hj : j < s.history.length), i < j →
      (s.history.get ⟨i, hi⟩).startNonce + (s.history.get ⟨i, hi⟩).batchSize ≤
        (s.history.get ⟨j, hj⟩).startNonce) := by
  have hinv := reachable_poolInv hr
  refine ⟨hinv.inflight_le_one, ?_, ?_⟩
  · intro tx s2 hg h
    obtain ⟨_, _, hbr⟩ := getNextTransaction_ok_cases h
    rcases hbr with ⟨hc, rfl⟩ | ⟨hc, rfl⟩
    · exfalso
      simp only [Bool.and_eq_true, beq_iff_eq, Bool.not_eq_eq_eq_not, Bool.not_true] at hc
      rw [hg] at hc
      exact absurd hc.2 (by simp)
    · exact ⟨rfl, rfl⟩
  · intro i j hi hj hij
    exact List.pairwise_iff_get.mp hinv.history_chain ⟨i, hi⟩ ⟨j, hj⟩ hij

/-- Witness for C5 at a concrete freshly initialized pool. -/
theorem single_refill_inflight_witness :
    (initState 1 100 2 3).inflight.length ≤ 1 :=
  (single_refill_inflight 1 100 2 3 (initState 1 100 2 3) Reachable.init).1

/-- Claim C9: getNextTransaction never reads out of bounds: whenever it
returns without error, the returned value is a present (some) entry,
namely the previously signed entry stored at the cursor, whose nonce is
baseNonce + cursor. -/
theorem take_no_oob (a n g e : Nat) (s : SysState) (hr : Reachable a n g e s)
    (tx : Option TxData) (s2 : SysState) (h : getNextTransaction s = .ok (tx, s2)) :
    ∃ entry, tx = some entry ∧
      s.pool.transactions[s.pool.currentIndex]? = some entry ∧
      entry ∈ s.pool.transactions ∧
      entry.nonce = s.pool.baseNonce + s.pool.currentIndex := by
  have hinv := reachable_poolInv hr
  obtain ⟨hlt, htx, _⟩ := getNextTransaction_ok_cases h
  refine ⟨s.pool.transactions[s.pool.currentIndex], ?_, ?_, ?_, hinv.nonce_at _ hlt⟩
  · rw [htx, List.getElem?_eq_getElem hlt]
  · rw [List.getElem?_eq_getElem hlt]
  · exact List.getElem_mem hlt

/-- Witness for C9 at the concrete first take of a freshly initialized
pool. -/
theorem take_no_oob_witness :
    ∃ entry,
      (initState 1 5 2 3).pool.transactions[(initState 1 5 2 3).pool.currentIndex]? =
        some entry ∧
      (initState 1 5 2 3).pool.transactions[(initState 1 5 2 3).pool.currentIndex]? =
        some entry ∧
      entry ∈ (initState 1 5 2 3).pool.transactions ∧
      entry.nonce = (initState 1 5 2 3).pool.baseNonce + (initState 1 5 2 3).pool.currentIndex :=
  take_no_oob 1 5 2 3 (initState 1 5 2 3) Reachable.init
    ((initState 1 5 2 3).pool.transactions[(initState 1 5 2 3).pool.currentIndex]?)
    (takeAdvance (initState 1 5 2 3)) rfl

/-- Claim C10: preSignBatch only appends to the entries buffer, leaving
the cursor, baseNonce, the guard, the already present entries and the
gas globals unchanged; a take leaves the entries, baseNonce and the gas
globals unchanged and only advances the cursor (at most setting the
guard); and baseNonce always holds the value written at init. -/
theorem frame_conditions (a : Nat) :
    (∀ (s : SysState) (startNonce batchSize : Nat),
      (runPreSignBatch a s startNonce batchSize).pool.transactions =
        s.pool.transactions ++
          preSignBatchTxs a s.gasPrice s.gasLimit startNonce batchSize ∧
      (runPreSignBatch a s startNonce batchSize).pool.transactions.take
          s.pool.transactions.length = s.pool.transactions ∧
      (runPreSignBatch a s startNonce batchSize).pool.currentIndex = s.pool.currentIndex ∧
      (runPreSignBatch a s startNonce batchSize).pool.baseNonce = s.pool.baseNonce ∧
      (runPreSignBatch a s startNonce batchSize).pool.hasTriggeredRefill =
        s.pool.hasTriggeredRefill ∧
      (runPreSignBatch a s startNonce batchSize).gasPrice = s.gasPrice ∧
      (runPreSignBatch a s startNonce batchSize).gasLimit = s.gasLimit) ∧
    (∀ (s : SysState) (tx : Option TxData) (s2 : SysState),
      getNextTransaction s = .ok (tx, s2) →
      s2.pool.transactions = s.pool.transactions ∧
      s2.pool.baseNonce = s.pool.baseNonce ∧
      s2.gasPrice = s.gasPrice ∧ s2.gasLimit = s.gasLimit ∧
      s2.pool.currentIndex = s.pool.currentIndex + 1 ∧
      (s2.pool.hasTriggeredRefill = s.pool.hasTriggeredRefill ∨
        (s.pool.hasTriggeredRefill = false ∧ s2.pool.hasTriggeredRefill = true))) ∧
    (∀ (n g e : Nat) (s : SysState), Reachable a n g e s → s.pool.baseNonce = n) := by
  refine ⟨?_, ?_, ?_⟩
  · intro s startNonce batchSize
    refine ⟨rfl, ?_, rfl, rfl, rfl, rfl, rfl⟩
    exact List.take_left s.pool.transactions _
  · intro s tx s2 h
    obtain ⟨hc, ht, hb, hg1, hg2⟩ := take_preserves h
    obtain ⟨_, _, hbr⟩ := getNextTransaction_ok_cases h
    refine ⟨ht, hb, hg1, hg2, hc, ?_⟩
    rcases hbr with ⟨hcond, rfl⟩ | ⟨hcond, rfl⟩
    · right
      simp only [Bool.and_eq_true, beq_iff_eq, Bool.not_eq_eq_eq_not, Bool.not_true] at hcond
      exact ⟨hcond.2, rfl⟩
    · left
      rfl
  · intro n g e s hr
    exact (reachable_poolInv hr).base_eq

/-- Witness for C10 at a concrete freshly initialized pool. -/
theorem frame_conditions_witness :
    (initState 1 100 2 3).pool.baseNonce = 100 :=
  (frame_conditions 1).2.2 100 2 3 (initState 1 100 2 3) Reachable.init

/-- Claim C6: one preSignBatch call with a start nonce and a count
produces exactly that many signed entries, with nonces start..start+n-1,
each a zero-value send to the owning account itself, and each carrying
the distinguishing payload i + 1, distinct within the batch. -/
theorem preSignBatch_contract (a g l sn n : Nat) :
    (preSignBatchTxs a g l sn n).length = n ∧
    (∀ i (h : i < (preSignBatchTxs a g l sn n).length),
      ((preSignBatchTxs a g l sn n).get ⟨i, h⟩).nonce = sn + i ∧
      ((preSignBatchTxs a g l sn n).get ⟨i, h⟩).value = 0 ∧
      ((preSignBatchTxs a g l sn n).get ⟨i, h⟩).toAddr = a ∧
      ((preSignBatchTxs a g l sn n).get ⟨i, h⟩).data = i + 1) ∧
    (∀ i j (hi : i < (preSignBatchTxs a g l sn n).length)
      (hj : j < (preSignBatchTxs a g l sn n).length), i ≠ j →
      ((preSignBatchTxs a g l sn n).get ⟨i, hi⟩).data ≠
        ((preSignBatchTxs a g l sn n).get ⟨j, hj⟩).data) := by
  refine ⟨preSignBatchTxs_length a g l sn n, ?_, ?_⟩
  · intro i h
    simp [preSignBatchTxs]
  · intro i j hi hj hne
    simp only [List.get_eq_getElem]
    have hi2 := hi
    have hj2 := hj
    rw [preSignBatchTxs_getElem a g l sn n i hi2, preSignBatchTxs_getElem a g l sn n j hj2]
    simpa using hne

/-- Witness for C6 at concrete arguments. -/
theorem preSignBatch_contract_witness :
    (preSignBatchTxs 1 2 3 4 5).length = 5 :=
  (preSignBatch_contract 1 2 3 4 5).1

theorem advanceRound_results (u : UIState) : (advanceRound u).results = u.results := by
  unfold advanceRound
  split
  · rfl
  · rfl

theorem advanceRound_lt (u : UIState) (h : u.currentRound < 5) :
    (advanceRound u).currentRound = u.currentRound + 1 ∧
    (advanceRound u).gameState = .waiting := by
  unfold advanceRound
  rw [if_neg (by omega)]
  exact ⟨rfl, rfl⟩

theorem advanceRound_ge (u : UIState) (h : 5 ≤ u.currentRound) :
    (advanceRound u).gameState = .finished := by
  unfold advanceRound
  rw [if_pos (by omega)]

theorem advanceRound_congr (u v : UIState) (h : u.currentRound = v.currentRound) :
    (advanceRound u).gameState = (advanceRound v).gameState ∧
    (advanceRound u).currentRound = (advanceRound v).currentRound := by
  unfold advanceRound
  by_cases hc : u.currentRound ≥ 5
  · rw [if_pos hc, if_pos (by omega)]
    exact ⟨rfl, h⟩
  · rw [if_neg hc, if_neg (by omega)]
    exact ⟨rfl, by simp [h]⟩

/-- Claim C7: when the transaction block of a valid click throws, the
round is recorded as a failed attempt with zero transaction time and a
total time equal to the recorded reaction time alone, and the game
advances exactly as on success: to the next round before round 5, to
the finished screen from round 5 on. -/
theorem broadcast_failure_recorded (ui : UIState) (d : Nat)
    (hready : ui.isReady = true) (hstate : ui.gameState = GameState.ready) :
    (handleClick ui d .failure).results = ui.results ++
      [{ attempt := ui.currentRound,
         reactionTime := (d : Int) - (ADJUSTMENT : Int),
         txTime := 0,
         totalTime := (d : Int) - (ADJUSTMENT : Int),
         failed := true }] ∧
    (ui.currentRound < 5 →
      (handleClick ui d .failure).currentRound = ui.currentRound + 1 ∧
      (handleClick ui d .failure).gameState = .waiting) ∧
    (5 ≤ ui.currentRound → (handleClick ui d .failure).gameState = .finished) ∧
    (∀ t, (handleClick ui d .failure).gameState =
        (handleClick ui d (.success t)).gameState ∧
      (handleClick ui d .failure).currentRound =
        (handleClick ui d (.success t)).currentRound) := by
  obtain ⟨gs, cr, res, ir⟩ := ui
  simp only at hready hstate
  subst hready
  subst hstate
  have hfail : handleClick ⟨GameState.ready, cr, res, true⟩ d .failure =
      advanceRound ⟨GameState.ready, cr, res ++
        [{ attempt := cr, reactionTime := (d : Int) - (ADJUSTMENT : Int), txTime := 0,
           totalTime := (d : Int) - (ADJUSTMENT : Int), failed := true }], true⟩ := rfl
  have hsucc : ∀ t, handleClick ⟨GameState.ready, cr, res, true⟩ d (.success t) =
      advanceRound ⟨GameState.ready, cr, res ++
        [{ attempt := cr, reactionTime := (d : Int) - (ADJUSTMENT : Int), txTime := t,
           totalTime := ((d : Int) - (ADJUSTMENT : Int)) + (t : Int), failed := false }],
        true⟩ :=
    fun t => rfl
  refine ⟨?_, ?_, ?_, ?_⟩
  · rw [hfail, advanceRound_results]
  · intro hlt
    rw [hfail]
    exact advanceRound_lt _ hlt
  · intro hge
    rw [hfail]
    exact advanceRound_ge _ hge
  · intro t
    rw [hfail, hsucc t]
    exact advanceRound_congr _ _ rfl

/-- Witness for C7 at a concrete ready round-1 click whose broadcast
fails. -/
theorem broadcast_failure_recorded_witness :
    (handleClick ⟨GameState.ready, 1, [], true⟩ 250 .failure).results = [] ++
      [{ attempt := 1,
         reactionTime := ((250 : Nat) : Int) - (ADJUSTMENT : Int),
         txTime := 0,
         totalTime := ((250 : Nat) : Int) - (ADJUSTMENT : Int),
         failed := true }] ∧
    ((1 : Nat) < 5 →
      (handleClick ⟨GameState.ready, 1, [], true⟩ 250 .failure).currentRound = 1 + 1 ∧
      (handleClick ⟨GameState.ready, 1, [], true⟩ 250 .failure).gameState = .waiting) ∧
    ((5 : Nat) ≤ 1 →
      (handleClick ⟨GameState.ready, 1, [], true⟩ 250 .failure).gameState = .finished) ∧
    (∀ t, (handleClick ⟨GameState.ready, 1, [], true⟩ 250 .failure).gameState =
        (handleClick ⟨GameState.ready, 1, [], true⟩ 250 (.success t)).gameState ∧
      (handleClick ⟨GameState.ready, 1, [], true⟩ 250 .failure).currentRound =
        (handleClick ⟨GameState.ready, 1, [], true⟩ 250 (.success t)).currentRound) :=
  broadcast_failure_recorded ⟨GameState.ready, 1, [], true⟩ 250 rfl rfl

/-- Claim C8: if a startup query or the initial priming batch fails, the
pool never becomes ready: isReady stays false, no pool state is
produced, and every click on a not-ready UI leaves the state entirely
unchanged; readiness arises only from the all-success outcome. -/
theorem startup_failure_not_ready (a : Nat) (o : InitOutcome)
    (hfail : o = .queryFailed ∨ ∃ n0 g0 e0, o = .signingFailed n0 g0 e0) :
    (runInit a o).1 = false ∧ (runInit a o).2 = none ∧
    ((runInit a o).1 = true ↔ ∃ n0 g0 e0, o = .ok n0 g0 e0) ∧
    (∀ (ui : UIState) (d : Nat) (oc : TxOutcome), ui.isReady = false →
      handleClick ui d oc = ui) := by
  refine ⟨?_, ?_, ?_, ?_⟩
  · rcases hfail with rfl | ⟨n0, g0, e0, rfl⟩ <;> rfl
  · rcases hfail with rfl | ⟨n0, g0, e0, rfl⟩ <;> rfl
  · constructor
    · intro htrue
      rcases hfail with rfl | ⟨n0, g0, e0, rfl⟩ <;> exact absurd htrue (by simp [runInit])
    · intro ⟨n0, g0, e0, hok⟩
      rcases hfail with rfl | ⟨n1, g1, e1, rfl⟩ <;> simp at hok
  · intro ui d oc hnr
    unfold handleClick
    rw [hnr]
    simp

/-- Witness for C8 at the concrete failed-query outcome. -/
theorem startup_failure_not_ready_witness :
    (runInit 1 .queryFailed).1 = false ∧ (runInit 1 .queryFailed).2 = none ∧
    ((runInit 1 .queryFailed).1 = true ↔ ∃ n0 g0 e0,
      InitOutcome.queryFailed = InitOutcome.ok n0 g0 e0) ∧
    (∀ (ui : UIState) (d : Nat) (oc : TxOutcome), ui.isReady = false →
      handleClick ui d oc = ui) :=
  startup_failure_not_ready 1 .queryFailed (Or.inl rfl)
